import Mathlib

/-!
Verification of the Student Directory Service (`src/app.py`).

The service is a CRUD application over a single relational table
`students(id PK, first_name, last_name, email UNIQUE, dob NULLABLE)`.
We embed the store as a list of rows, the handlers `create_student`,
`list_students`, `get_student`, `update_student`, `delete_student` as pure
functions, and the HTTP layer (status codes from the route decorators and
`HTTPException`s) as wrapper functions returning a status, an optional body
and the resulting store.

Store semantics embedded from the SQLAlchemy declarations in `app.py`:
  * `id = Column(Integer, primary_key=True)`: SQLite assigns a fresh integer
    primary key `max(existing ids) + 1` on insert (`nextId` below).
  * `email = Column(String, unique=True)`: a commit that would leave two rows
    with the same email fails with an integrity error; the transaction is
    rolled back, so the store is unchanged and the request ends in a 500
    response.  This matters for `update_student`, which performs no
    application-level uniqueness check.
  * `db.get(StudentModel, id)` is primary-key lookup (`db_get`).
  * `db.query(...).all()` returns all rows (`list_students`).
-/

/-- A row of the `students` table (`StudentModel` in `app.py`).
`dob` is an optional calendar date, represented abstractly as a `Nat`. -/
structure StudentModel where
  id : Nat
  first_name : String
  last_name : String
  email : String
  dob : Option Nat
deriving Repr, DecidableEq

/-- The validated request payload (`StudentCreate` in `app.py`):
all required fields present and the email well-formed. -/
structure StudentCreate where
  first_name : String
  last_name : String
  email : String
  dob : Option Nat
deriving Repr, DecidableEq

/-- The database state: the rows of the `students` table, in insertion
order. -/
structure Store where
  rows : List StudentModel
deriving Repr, DecidableEq

/-- The empty store (fresh `students.db`). -/
def emptyStore : Store := ⟨[]⟩

/-- The errors a request can end in, as raised by the handlers
(`HTTPException(404)`, `HTTPException(400)`), by FastAPI/pydantic request
validation (422), or by the database unique-constraint on commit (500). -/
inductive ApiError
  | notFound
  | conflict
  | validationErr
  | integrityErr
deriving Repr, DecidableEq

/-- The HTTP status code each error is surfaced as. -/
def statusOf : ApiError → Nat
  | .notFound => 404
  | .conflict => 400
  | .validationErr => 422
  | .integrityErr => 500

/-- Largest primary key currently in use (0 for the empty table). -/
def maxIdL : List StudentModel → Nat :=
  List.foldr (fun r a => max r.id a) 0

/-- The primary key SQLite assigns to the next inserted row:
one more than the largest id present. -/
def nextId (st : Store) : Nat := maxIdL st.rows + 1

/-- `db.query(StudentModel).filter(StudentModel.email == e).first()` is
non-empty: some row has email `e`. -/
def emailExists (st : Store) (e : String) : Bool :=
  st.rows.any (fun r => r.email == e)

/-- `db.get(StudentModel, i)`: primary-key lookup. -/
def db_get (st : Store) (i : Nat) : Option StudentModel :=
  st.rows.find? (fun r => r.id == i)

/-- Handler `create_student` (`app.py` lines 70-85): reject a duplicate
email with 400, otherwise insert a row with a store-assigned id and return
it. -/
def create_student (p : StudentCreate) (st : Store) :
    Except ApiError (StudentModel × Store) :=
  if emailExists st p.email then
    .error .conflict
  else
    let s : StudentModel :=
      ⟨nextId st, p.first_name, p.last_name, p.email, p.dob⟩
    .ok (s, ⟨st.rows ++ [s]⟩)

/-- Handler `list_students` (`app.py` lines 89-92): all rows. -/
def list_students (st : Store) : List StudentModel := st.rows

/-- Handler `get_student` (`app.py` lines 96-101). -/
def get_student (i : Nat) (st : Store) : Except ApiError StudentModel :=
  match db_get st i with
  | none => .error .notFound
  | some s => .ok s

/-- Some row other than row `i` already carries email `e`; committing an
update of row `i` to email `e` would violate the `unique=True` column
constraint. -/
def emailUsedByOther (st : Store) (i : Nat) (e : String) : Bool :=
  st.rows.any (fun r => r.id != i && r.email == e)

/-- Handler `update_student` (`app.py` lines 105-117): 404 if the id is
absent; otherwise overwrite all four fields of the row.  The handler does
not re-check email uniqueness, but the commit enforces the `unique=True`
column: a colliding email makes the commit fail (integrity error, rolled
back). -/
def update_student (i : Nat) (p : StudentCreate) (st : Store) :
    Except ApiError (StudentModel × Store) :=
  match db_get st i with
  | none => .error .notFound
  | some _ =>
    if emailUsedByOther st i p.email then
      .error .integrityErr
    else
      let s : StudentModel := ⟨i, p.first_name, p.last_name, p.email, p.dob⟩
      .ok (s, ⟨st.rows.map (fun r => if r.id == i then s else r)⟩)

/-- Handler `delete_student` (`app.py` lines 121-128): 404 if the id is
absent; otherwise remove the row. -/
def delete_student (i : Nat) (st : Store) : Except ApiError Store :=
  match db_get st i with
  | none => .error .notFound
  | some _ => .ok ⟨st.rows.filter (fun r => r.id != i)⟩

/-- `POST /students` at the HTTP level: status, optional body, resulting
store.  Success status 201 from the route decorator; on error the store is
unchanged. -/
def createE (p : StudentCreate) (st : Store) :
    Nat × Option StudentModel × Store :=
  match create_student p st with
  | .ok (s, st') => (201, some s, st')
  | .error e => (statusOf e, none, st)

/-- `GET /students` at the HTTP level: status 200 and all rows. -/
def listE (st : Store) : Nat × List StudentModel :=
  (200, list_students st)

/-- `GET /students/id` at the HTTP level. -/
def getE (i : Nat) (st : Store) : Nat × Option StudentModel :=
  match get_student i st with
  | .ok s => (200, some s)
  | .error e => (statusOf e, none)

/-- `PUT /students/id` at the HTTP level. -/
def updateE (i : Nat) (p : StudentCreate) (st : Store) :
    Nat × Option StudentModel × Store :=
  match update_student i p st with
  | .ok (s, st') => (200, some s, st')
  | .error e => (statusOf e, none, st)

/-- `DELETE /students/id` at the HTTP level: 204 with no body on success
(the handler returns `None`). -/
def deleteE (i : Nat) (st : Store) : Nat × Option StudentModel × Store :=
  match delete_student i st with
  | .ok st' => (204, none, st')
  | .error e => (statusOf e, none, st)

/-- A request body as received on the wire: each field may be missing. -/
structure RawPayload where
  first_name : Option String
  last_name : Option String
  email : Option String
  dob : Option Nat
deriving Repr, DecidableEq

/-- Modelled from the spec: pydantic's `EmailStr` (not part of the
repository source) accepts a syntactically valid email address.  We model
the check structurally: exactly one `@` separating two non-empty parts.
Only validity/invalidity of a payload matters to the claims, not the exact
grammar. -/
def isValidEmail (e : String) : Bool :=
  match e.splitOn "@" with
  | [lp, dp] => !lp.isEmpty && !dp.isEmpty
  | _ => false

/-- FastAPI/pydantic request-body validation for the `StudentCreate`
schema: the three required fields must be present and the email
well-formed; `dob` is optional.  Failure is reported as 422 before the
handler (and hence the store) is reached. -/
def validatePayload (raw : RawPayload) : Except ApiError StudentCreate :=
  match raw.first_name, raw.last_name, raw.email with
  | some f, some l, some e =>
    if isValidEmail e then .ok ⟨f, l, e, raw.dob⟩ else .error .validationErr
  | _, _, _ => .error .validationErr

/-- `POST /students` including request validation. -/
def createRawE (raw : RawPayload) (st : Store) :
    Nat × Option StudentModel × Store :=
  match validatePayload raw with
  | .error e => (statusOf e, none, st)
  | .ok p => createE p st

/-- `PUT /students/id` including request validation (FastAPI validates the
body before the handler runs). -/
def updateRawE (i : Nat) (raw : RawPayload) (st : Store) :
    Nat × Option StudentModel × Store :=
  match validatePayload raw with
  | .error e => (statusOf e, none, st)
  | .ok p => updateE i p st

/-- One mutating API request (reads do not change the store). -/
inductive Op
  | createOp (raw : RawPayload)
  | updateOp (i : Nat) (raw : RawPayload)
  | deleteOp (i : Nat)

/-- The store after one request (unchanged when the request fails). -/
def applyOp (st : Store) : Op → Store
  | .createOp raw => (createRawE raw st).2.2
  | .updateOp i raw => (updateRawE i raw st).2.2
  | .deleteOp i => (deleteE i st).2.2

/-- The store after a sequence of requests starting from the empty store. -/
def runOps (ops : List Op) : Store :=
  ops.foldl applyOp emptyStore

/-- A store state the service can actually be in: produced by some request
sequence from the empty store. -/
def Reachable (st : Store) : Prop := ∃ ops : List Op, runOps ops = st

/-- No two rows share an email. -/
def EmailsDistinct (st : Store) : Prop :=
  (st.rows.map StudentModel.email).Nodup

/-- No two rows share a primary key. -/
def IdsDistinct (st : Store) : Prop :=
  (st.rows.map StudentModel.id).Nodup

/-- The store invariant: primary keys and emails are pairwise distinct. -/
def StoreInv (st : Store) : Prop := EmailsDistinct st ∧ IdsDistinct st

instance (st : Store) : Decidable (EmailsDistinct st) := by
  unfold EmailsDistinct; infer_instance

instance (st : Store) : Decidable (IdsDistinct st) := by
  unfold IdsDistinct; infer_instance

instance (st : Store) : Decidable (StoreInv st) := by
  unfold StoreInv; exact instDecidableAnd

/-! ### Helper lemmas about the store -/

theorem mem_le_maxIdL (r : StudentModel) (l : List StudentModel) (h : r ∈ l) :
    r.id ≤ maxIdL l := by
  induction l with
  | nil => cases h
  | cons a t ih =>
    rcases List.mem_cons.1 h with rfl | h'
    · simp [maxIdL]
    · simp only [maxIdL, List.foldr_cons]
      exact le_trans (ih h') (le_max_right _ _)

theorem id_lt_nextId (st : Store) (r : StudentModel) (h : r ∈ st.rows) :
    r.id < nextId st :=
  Nat.lt_succ_of_le (mem_le_maxIdL r st.rows h)

theorem emailExists_eq_false (st : Store) (e : String) :
    emailExists st e = false ↔ ∀ r ∈ st.rows, r.email ≠ e := by
  simp [emailExists]

theorem emailExists_eq_true (st : Store) (e : String) :
    emailExists st e = true ↔ ∃ r ∈ st.rows, r.email = e := by
  simp [emailExists]

theorem emailUsedByOther_eq_false (st : Store) (i : Nat) (e : String) :
    emailUsedByOther st i e = false ↔
      ∀ r ∈ st.rows, r.id ≠ i → r.email ≠ e := by
  simp [emailUsedByOther]

theorem db_get_eq_none (st : Store) (i : Nat) :
    db_get st i = none ↔ ∀ r ∈ st.rows, r.id ≠ i := by
  simp [db_get, List.find?_eq_none]

theorem db_get_isSome (st : Store) (i : Nat) :
    (db_get st i).isSome ↔ ∃ r ∈ st.rows, r.id = i := by
  simp [db_get, List.find?_isSome]

theorem db_get_some (st : Store) (i : Nat) (s : StudentModel)
    (h : db_get st i = some s) : s ∈ st.rows ∧ s.id = i := by
  refine ⟨List.mem_of_find?_eq_some h, ?_⟩
  have := List.find?_some h
  simpa using this

theorem find?_append_of_none {α : Type} (l₁ l₂ : List α) (p : α → Bool)
    (h : ∀ x ∈ l₁, ¬ p x) : (l₁ ++ l₂).find? p = l₂.find? p := by
  induction l₁ with
  | nil => rfl
  | cons a t ih =>
    simp only [List.cons_append, List.find?_cons_of_neg _ (h a (by simp)),
      ih fun x hx => h x (by simp [hx])]

theorem find_id_of_mem (l : List StudentModel) (s : StudentModel)
    (hnd : (l.map StudentModel.id).Nodup) (hm : s ∈ l) :
    l.find? (fun r => r.id == s.id) = some s := by
  induction l with
  | nil => cases hm
  | cons a t ih =>
    simp only [List.map_cons, List.nodup_cons] at hnd
    rcases List.mem_cons.1 hm with rfl | hm'
    · exact List.find?_cons_of_pos _ (by simp)
    · have ha : (a.id == s.id) = false := by
        simp only [beq_eq_false_iff_ne, ne_eq]
        intro he
        exact hnd.1 (he ▸ List.mem_map_of_mem StudentModel.id hm')
      rw [List.find?_cons, ha, ih hnd.2 hm']

theorem db_get_of_mem (st : Store) (s : StudentModel)
    (hnd : IdsDistinct st) (hm : s ∈ st.rows) : db_get st s.id = some s :=
  find_id_of_mem st.rows s hnd hm

/-! ### Preservation of the store invariant -/

theorem ids_map_update (l : List StudentModel) (i : Nat) (s : StudentModel)
    (hsid : s.id = i) :
    (l.map (fun r => if r.id == i then s else r)).map StudentModel.id =
      l.map StudentModel.id := by
  rw [List.map_map]
  apply List.map_congr_left
  intro r hr
  by_cases h : r.id = i
  · simp [Function.comp, h, hsid]
  · simp [Function.comp, h]

theorem nodup_email_update (l : List StudentModel) (i : Nat) (s : StudentModel)
    (hid : (l.map StudentModel.id).Nodup)
    (hem : (l.map StudentModel.email).Nodup)
    (hother : ∀ r ∈ l, r.id ≠ i → r.email ≠ s.email) :
    ((l.map (fun r => if r.id == i then s else r)).map
      StudentModel.email).Nodup := by
  induction l with
  | nil => simp
  | cons a t ih =>
    simp only [List.map_cons, List.nodup_cons] at hid hem ⊢
    by_cases ha : a.id = i
    · have ht : t.map (fun r => if r.id == i then s else r) = t := by
        have hpt : ∀ r ∈ t, (if r.id == i then s else r) = r := by
          intro r hr
          have hri : ¬ r.id = i := by
            intro he
            exact hid.1 (List.mem_map.2 ⟨r, hr, he.trans ha.symm⟩)
          simp [hri]
        calc t.map (fun r => if r.id == i then s else r)
            = t.map id := List.map_congr_left (by simpa using hpt)
          _ = t := List.map_id t
      rw [ht]
      constructor
      · simp only [ha, if_pos, beq_self_eq_true]
        simp only [List.mem_map, not_exists, not_and]
        intro r hr hre
        have hri : ¬ r.id = i := by
          intro he
          exact hid.1 (List.mem_map.2 ⟨r, hr, he.trans ha.symm⟩)
        exact hother r (List.mem_cons_of_mem a hr) hri hre
      · exact hem.2
    · have hfa : (if a.id == i then s else a) = a := by simp [ha]
      rw [hfa]
      constructor
      · simp only [List.mem_map, not_exists, not_and]
        intro y hy hye
        rcases hy with ⟨r, hr, hfr⟩
        by_cases hri : r.id = i
        · have : y = s := by rw [← hfr]; simp [hri]
          subst this
          exact hother a (List.mem_cons_self a t) ha hye.symm
        · have : y = r := by rw [← hfr]; simp [hri]
          subst this
          exact hem.1 (List.mem_map.2 ⟨y, hr, hye⟩)
      · exact ih hid.2 hem.2
          (fun r hr hri => hother r (List.mem_cons_of_mem a hr) hri)

theorem inv_create_student (st : Store) (p : StudentCreate) (s : StudentModel)
    (st' : Store) (hinv : StoreInv st)
    (h : create_student p st = .ok (s, st')) : StoreInv st' := by
  unfold create_student at h
  by_cases hex : emailExists st p.email = true
  · rw [if_pos hex] at h; cases h
  · rw [if_neg hex] at h
    have hex' := (emailExists_eq_false st p.email).1 (by simpa using hex)
    simp only [Except.ok.injEq, Prod.mk.injEq] at h
    obtain ⟨-, hst⟩ := h
    subst hst
    constructor
    · show ((st.rows ++ _).map StudentModel.email).Nodup
      rw [List.map_append]
      simp only [List.nodup_append, List.map_cons, List.map_nil]
      refine ⟨hinv.1, by simp, ?_⟩
      intro e he he'
      simp only [List.mem_cons, List.not_mem_nil, or_false] at he'
      rcases List.mem_map.1 he with ⟨r, hr, hre⟩
      exact hex' r hr (hre.trans he')
    · show ((st.rows ++ _).map StudentModel.id).Nodup
      rw [List.map_append]
      simp only [List.nodup_append, List.map_cons, List.map_nil]
      refine ⟨hinv.2, by simp, ?_⟩
      intro x hx hx'
      simp only [List.mem_cons, List.not_mem_nil, or_false] at hx'
      rcases List.mem_map.1 hx with ⟨r, hr, hrx⟩
      have := id_lt_nextId st r hr
      omega

theorem inv_update_student (st : Store) (i : Nat) (p : StudentCreate)
    (s : StudentModel) (st' : Store) (hinv : StoreInv st)
    (h : update_student i p st = .ok (s, st')) : StoreInv st' := by
  unfold update_student at h
  cases hg : db_get st i with
  | none => rw [hg] at h; cases h
  | some s0 =>
    rw [hg] at h
    by_cases hu : emailUsedByOther st i p.email = true
    · rw [if_pos hu] at h; cases h
    · rw [if_neg hu] at h
      have hu' := (emailUsedByOther_eq_false st i p.email).1 (by simpa using hu)
      simp only [Except.ok.injEq, Prod.mk.injEq] at h
      obtain ⟨-, hst⟩ := h
      subst hst
      constructor
      · exact nodup_email_update st.rows i
          ⟨i, p.first_name, p.last_name, p.email, p.dob⟩ hinv.2 hinv.1 hu'
      · show ((st.rows.map _).map StudentModel.id).Nodup
        rw [ids_map_update st.rows i _ rfl]
        exact hinv.2

theorem inv_delete_student (st : Store) (i : Nat) (st' : Store)
    (hinv : StoreInv st) (h : delete_student i st = .ok st') : StoreInv st' := by
  unfold delete_student at h
  cases hg : db_get st i with
  | none => rw [hg] at h; cases h
  | some s0 =>
    rw [hg] at h
    simp only [Except.ok.injEq] at h
    subst h
    constructor
    · exact List.Nodup.sublist
        ((List.filter_sublist st.rows).map StudentModel.email) hinv.1
    · exact List.Nodup.sublist
        ((List.filter_sublist st.rows).map StudentModel.id) hinv.2

theorem inv_createE (p : StudentCreate) (st : Store) (h : StoreInv st) :
    StoreInv (createE p st).2.2 := by
  unfold createE
  cases hc : create_student p st with
  | ok v => exact inv_create_student st p v.1 v.2 h (by rw [hc])
  | error e => exact h

theorem inv_updateE (i : Nat) (p : StudentCreate) (st : Store)
    (h : StoreInv st) : StoreInv (updateE i p st).2.2 := by
  unfold updateE
  cases hc : update_student i p st with
  | ok v => exact inv_update_student st i p v.1 v.2 h (by rw [hc])
  | error e => exact h

theorem inv_deleteE (i : Nat) (st : Store) (h : StoreInv st) :
    StoreInv (deleteE i st).2.2 := by
  unfold deleteE
  cases hc : delete_student i st with
  | ok st' => exact inv_delete_student st i st' h hc
  | error e => exact h

theorem inv_createRawE (raw : RawPayload) (st : Store) (h : StoreInv st) :
    StoreInv (createRawE raw st).2.2 := by
  unfold createRawE
  cases validatePayload raw with
  | ok p => exact inv_createE p st h
  | error e => exact h

theorem inv_updateRawE (i : Nat) (raw : RawPayload) (st : Store)
    (h : StoreInv st) : StoreInv (updateRawE i raw st).2.2 := by
  unfold updateRawE
  cases validatePayload raw with
  | ok p => exact inv_updateE i p st h
  | error e => exact h

theorem inv_applyOp (st : Store) (op : Op) (h : StoreInv st) :
    StoreInv (applyOp st op) := by
  cases op with
  | createOp raw => exact inv_createRawE raw st h
  | updateOp i raw => exact inv_updateRawE i raw st h
  | deleteOp i => exact inv_deleteE i st h

theorem inv_foldl (ops : List Op) :
    ∀ st : Store, StoreInv st → StoreInv (ops.foldl applyOp st) := by
  induction ops with
  | nil => intro st h; exact h
  | cons op rest ih =>
    intro st h
    exact ih (applyOp st op) (inv_applyOp st op h)

theorem inv_emptyStore : StoreInv emptyStore := by
  constructor <;> simp [EmailsDistinct, IdsDistinct, emptyStore]

theorem inv_reachable (st : Store) (h : Reachable st) : StoreInv st := by
  obtain ⟨ops, rfl⟩ := h
  exact inv_foldl ops emptyStore inv_emptyStore

/-! ### Sequences of creates (for the List round trip) -/

/-- The store after a sequence of create requests. -/
def creates (ps : List StudentCreate) (st : Store) : Store :=
  ps.foldl (fun acc p => (createE p acc).2.2) st

theorem createE_rows_of_fresh (p : StudentCreate) (st : Store)
    (h : emailExists st p.email = false) :
    (createE p st).2.2.rows =
      st.rows ++ [⟨nextId st, p.first_name, p.last_name, p.email, p.dob⟩] := by
  unfold createE create_student
  rw [h]
  simp

theorem creates_emails (ps : List StudentCreate) :
    ∀ st : Store,
      (st.rows.map StudentModel.email ++ ps.map StudentCreate.email).Nodup →
      (creates ps st).rows.map StudentModel.email =
        st.rows.map StudentModel.email ++ ps.map StudentCreate.email := by
  induction ps with
  | nil => intro st _; simp [creates]
  | cons p rest ih =>
    intro st h
    have hfresh : emailExists st p.email = false := by
      rw [emailExists_eq_false]
      intro r hr hre
      rw [List.nodup_append] at h
      exact h.2.2 (List.mem_map.2 ⟨r, hr, hre⟩) (by simp)
    have hrows := createE_rows_of_fresh p st hfresh
    have hstep :
        (createE p st).2.2.rows.map StudentModel.email =
          st.rows.map StudentModel.email ++ [p.email] := by
      rw [hrows, List.map_append]
      rfl
    show (creates rest (createE p st).2.2).rows.map StudentModel.email = _
    rw [ih (createE p st).2.2 (by rw [hstep, List.append_assoc]; simpa using h),
      hstep, List.append_assoc]
    rfl

theorem inv_creates (ps : List StudentCreate) :
    ∀ st : Store, StoreInv st → StoreInv (creates ps st) := by
  induction ps with
  | nil => intro st h; exact h
  | cons p rest ih =>
    intro st h
    exact ih (createE p st).2.2 (inv_createE p st h)

/-! ### Concrete sample data for witnesses -/

/-- Sample row 1 (the spec's worked example). -/
def adaRow : StudentModel := ⟨1, "Ada", "Lovelace", "ada@example.com", none⟩

/-- Sample row 2. -/
def bobRow : StudentModel := ⟨2, "Bob", "Smith", "bob@example.com", none⟩

/-- A sample populated store. -/
def sampleStore : Store := ⟨[adaRow, bobRow]⟩

/-- Sample create payload matching `adaRow`. -/
def adaPayload : StudentCreate := ⟨"Ada", "Lovelace", "ada@example.com", none⟩

/-- Sample create payload matching `bobRow`. -/
def bobPayload : StudentCreate := ⟨"Bob", "Smith", "bob@example.com", none⟩

/-- Sample create payload with a third, fresh email. -/
def caraPayload : StudentCreate := ⟨"Cara", "Jones", "cara@example.com", none⟩

/-- A raw request for `adaPayload`, all fields present. -/
def adaRaw : RawPayload :=
  ⟨some "Ada", some "Lovelace", some "ada@example.com", none⟩

/-- A raw request for `bobPayload`, all fields present. -/
def bobRaw : RawPayload :=
  ⟨some "Bob", some "Smith", some "bob@example.com", none⟩

/-! ### Claims -/

/-- C1: in every store state reachable from the empty store by Create,
Update and Delete requests, no two rows carry the same email (exact string
comparison), and applying any further request preserves this. -/
theorem c1_email_uniqueness_invariant (st : Store) (h : Reachable st) :
    EmailsDistinct st ∧ ∀ op : Op, EmailsDistinct (applyOp st op) := by
  have hinv := inv_reachable st h
  exact ⟨hinv.1, fun op => (inv_applyOp st op hinv).1⟩

/-- Witness for C1 at the store reached by two create requests. -/
theorem c1_witness :
    EmailsDistinct (runOps [Op.createOp adaRaw, Op.createOp bobRaw]) :=
  (c1_email_uniqueness_invariant
    (runOps [Op.createOp adaRaw, Op.createOp bobRaw]) ⟨_, rfl⟩).1

/-- C2: a create with an email used by no stored row succeeds with 201,
returns the stored record with its system-assigned id, and a get of that id
in the resulting store returns the same record. -/
theorem c2_create_get_roundtrip (st : Store) (p : StudentCreate)
    (h : ∀ r ∈ st.rows, r.email ≠ p.email) :
    ∃ s st', createE p st = (201, some s, st') ∧
      getE s.id st' = (200, some s) := by
  have hex : emailExists st p.email = false :=
    (emailExists_eq_false st p.email).2 h
  refine ⟨⟨nextId st, p.first_name, p.last_name, p.email, p.dob⟩,
    ⟨st.rows ++ [⟨nextId st, p.first_name, p.last_name, p.email, p.dob⟩]⟩,
    ?_, ?_⟩
  · unfold createE create_student
    rw [hex]
    rfl
  · have hdb : db_get
        ⟨st.rows ++ [⟨nextId st, p.first_name, p.last_name, p.email, p.dob⟩]⟩
        (nextId st) = some ⟨nextId st, p.first_name, p.last_name, p.email,
          p.dob⟩ := by
      unfold db_get
      rw [find?_append_of_none st.rows _ _ ?_]
      · simp [List.find?]
      · intro r hr
        have := id_lt_nextId st r hr
        simp only [beq_iff_eq]
        omega
    unfold getE get_student
    rw [hdb]

/-- Witness for C2: creating Ada in the empty store. -/
theorem c2_witness :
    ∃ s st', createE adaPayload emptyStore = (201, some s, st') ∧
      getE s.id st' = (200, some s) :=
  c2_create_get_roundtrip emptyStore adaPayload (by decide)

/-- C3: a create whose email is already carried by some stored row fails
with 400 and leaves the store exactly as it was. -/
theorem c3_duplicate_email_conflict (st : Store) (p : StudentCreate)
    (h : ∃ r ∈ st.rows, r.email = p.email) :
    createE p st = (400, none, st) := by
  have hex : emailExists st p.email = true :=
    (emailExists_eq_true st p.email).2 h
  unfold createE create_student
  rw [hex]
  rfl

/-- Witness for C3: re-creating Ada's email in the sample store. -/
theorem c3_witness :
    createE ⟨"Someone", "Else", "ada@example.com", none⟩ sampleStore =
      (400, none, sampleStore) :=
  c3_duplicate_email_conflict sampleStore
    ⟨"Someone", "Else", "ada@example.com", none⟩ (by decide)

/-- C4: get, update and delete on an id carried by no stored row all fail
with 404 and leave the store unchanged. -/
theorem c4_notfound_no_side_effects (st : Store) (i : Nat)
    (h : ∀ r ∈ st.rows, r.id ≠ i) :
    getE i st = (404, none) ∧
    (∀ p : StudentCreate, updateE i p st = (404, none, st)) ∧
    deleteE i st = (404, none, st) := by
  have hdb : db_get st i = none := (db_get_eq_none st i).2 h
  refine ⟨?_, ?_, ?_⟩
  · unfold getE get_student
    rw [hdb]
    rfl
  · intro p
    unfold updateE update_student
    rw [hdb]
    rfl
  · unfold deleteE delete_student
    rw [hdb]
    rfl

/-- Witness for C4 at id 5, absent from the sample store. -/
theorem c4_witness :
    getE 5 sampleStore = (404, none) ∧
    updateE 5 caraPayload sampleStore = (404, none, sampleStore) ∧
    deleteE 5 sampleStore = (404, none, sampleStore) :=
  ⟨(c4_notfound_no_side_effects sampleStore 5 (by decide)).1,
   (c4_notfound_no_side_effects sampleStore 5 (by decide)).2.1 caraPayload,
   (c4_notfound_no_side_effects sampleStore 5 (by decide)).2.2⟩

/-- C5 counterexample: the sample store contains a row with id 2, yet
updating row 2 to Ada's email does not succeed: the commit violates the
unique-email column and the request ends with status 500, not 200, with no
record returned and the store unchanged. -/
theorem c5_counterexample :
    (∃ r ∈ sampleStore.rows, r.id = 2) ∧
    updateE 2 ⟨"Bob", "Smith", "ada@example.com", none⟩ sampleStore =
      (500, none, sampleStore) ∧
    (updateE 2 ⟨"Bob", "Smith", "ada@example.com", none⟩ sampleStore).1 ≠
      200 := by
  decide

/-- C5 (amended): if the store contains a row with id `i` and the payload's
email is carried by no other row, the update succeeds with 200 and the
returned record carries exactly the submitted `first_name`, `last_name`,
`email` and `dob`, with its id still `i`. -/
theorem c5_update_full_replacement (st : Store) (i : Nat) (p : StudentCreate)
    (hmem : ∃ r ∈ st.rows, r.id = i)
    (hem : ∀ r ∈ st.rows, r.id ≠ i → r.email ≠ p.email) :
    (updateE i p st).1 = 200 ∧
    (updateE i p st).2.1 =
      some ⟨i, p.first_name, p.last_name, p.email, p.dob⟩ := by
  have hsome : (db_get st i).isSome := (db_get_isSome st i).2 hmem
  obtain ⟨s0, hs0⟩ := Option.isSome_iff_exists.1 hsome
  have hu : emailUsedByOther st i p.email = false :=
    (emailUsedByOther_eq_false st i p.email).2 hem
  unfold updateE update_student
  rw [hs0, hu]
  exact ⟨rfl, rfl⟩

/-- Witness for the amended C5: replacing Bob's record (same email,
new dob). -/
theorem c5_witness :
    (updateE 2 ⟨"Bob", "Smith", "bob@example.com", some 19990101⟩
      sampleStore).1 = 200 ∧
    (updateE 2 ⟨"Bob", "Smith", "bob@example.com", some 19990101⟩
      sampleStore).2.1 =
      some ⟨2, "Bob", "Smith", "bob@example.com", some 19990101⟩ :=
  c5_update_full_replacement sampleStore 2
    ⟨"Bob", "Smith", "bob@example.com", some 19990101⟩
    (by decide) (by decide)

/-- C6: after a successful delete of id `i`, a get of id `i` in the
resulting store fails with 404. -/
theorem c6_get_after_delete (st : Store) (i : Nat)
    (h : ∃ r ∈ st.rows, r.id = i) :
    (deleteE i st).1 = 204 ∧ getE i (deleteE i st).2.2 = (404, none) := by
  have hsome : (db_get st i).isSome := (db_get_isSome st i).2 h
  obtain ⟨s0, hs0⟩ := Option.isSome_iff_exists.1 hsome
  have hE : deleteE i st =
      (204, none, ⟨st.rows.filter (fun r => r.id != i)⟩) := by
    unfold deleteE delete_student
    rw [hs0]
  rw [hE]
  refine ⟨rfl, ?_⟩
  have hnone : db_get ⟨st.rows.filter (fun r => r.id != i)⟩ i = none := by
    rw [db_get_eq_none]
    intro r hr
    have := List.of_mem_filter hr
    simpa using this
  unfold getE get_student
  rw [hnone]
  rfl

/-- Witness for C6: deleting Ada then getting id 1. -/
theorem c6_witness :
    (deleteE 1 sampleStore).1 = 204 ∧
    getE 1 (deleteE 1 sampleStore).2.2 = (404, none) :=
  c6_get_after_delete sampleStore 1 (by decide)

/-- C7: a delete of a stored id succeeds with 204 and no body, and the
resulting store holds exactly the other rows: a row is stored afterwards
iff it was stored before and its id differs from the deleted one. -/
theorem c7_delete_frame (st : Store) (i : Nat)
    (h : ∃ r ∈ st.rows, r.id = i) :
    (deleteE i st).1 = 204 ∧ (deleteE i st).2.1 = none ∧
    ∀ r : StudentModel,
      r ∈ (deleteE i st).2.2.rows ↔ (r ∈ st.rows ∧ r.id ≠ i) := by
  have hsome : (db_get st i).isSome := (db_get_isSome st i).2 h
  obtain ⟨s0, hs0⟩ := Option.isSome_iff_exists.1 hsome
  have hE : deleteE i st =
      (204, none, ⟨st.rows.filter (fun r => r.id != i)⟩) := by
    unfold deleteE delete_student
    rw [hs0]
  rw [hE]
  refine ⟨rfl, rfl, ?_⟩
  intro r
  simp [List.mem_filter]

/-- Witness for C7: deleting Ada from the sample store keeps Bob. -/
theorem c7_witness :
    (deleteE 1 sampleStore).1 = 204 ∧ (deleteE 1 sampleStore).2.1 = none ∧
    (bobRow ∈ (deleteE 1 sampleStore).2.2.rows ↔
      (bobRow ∈ sampleStore.rows ∧ bobRow.id ≠ 1)) :=
  ⟨(c7_delete_frame sampleStore 1 (by decide)).1,
   (c7_delete_frame sampleStore 1 (by decide)).2.1,
   (c7_delete_frame sampleStore 1 (by decide)).2.2 bobRow⟩

/-- C8: starting from the empty store, creating a sequence of students with
pairwise-distinct emails yields a store whose list endpoint returns exactly
as many records as there were creates, each of which the get endpoint
returns when asked for its id. -/
theorem c8_list_after_creates (ps : List StudentCreate)
    (h : (ps.map StudentCreate.email).Nodup) :
    (listE (creates ps emptyStore)).2.length = ps.length ∧
    ∀ s ∈ (listE (creates ps emptyStore)).2,
      getE s.id (creates ps emptyStore) = (200, some s) := by
  have hemails := creates_emails ps emptyStore (by simpa [emptyStore] using h)
  have hinv := inv_creates ps emptyStore inv_emptyStore
  constructor
  · have hlen : ((creates ps emptyStore).rows.map
        StudentModel.email).length = ps.length := by
      rw [hemails]
      simp [emptyStore]
    rw [List.length_map] at hlen
    simpa [listE, list_students] using hlen
  · intro s hs
    have hm : s ∈ (creates ps emptyStore).rows := by
      simpa [listE, list_students] using hs
    have hdb := db_get_of_mem (creates ps emptyStore) s hinv.2 hm
    unfold getE get_student
    rw [hdb]

/-- Witness for C8 with two distinct-email creates. -/
theorem c8_witness :
    (listE (creates [adaPayload, bobPayload] emptyStore)).2.length = 2 ∧
    (adaRow ∈ (listE (creates [adaPayload, bobPayload] emptyStore)).2 →
      getE adaRow.id (creates [adaPayload, bobPayload] emptyStore) =
        (200, some adaRow)) :=
  ⟨(c8_list_after_creates [adaPayload, bobPayload] (by decide)).1,
   (c8_list_after_creates [adaPayload, bobPayload] (by decide)).2 adaRow⟩

/-- C9: a create or update request whose body misses a required field or
carries a malformed email is rejected with 422 by request validation,
before the handler runs, and the store is unchanged. -/
theorem c9_validation_rejects (raw : RawPayload) (st : Store) (i : Nat)
    (h : raw.first_name = none ∨ raw.last_name = none ∨ raw.email = none ∨
      ∃ e, raw.email = some e ∧ isValidEmail e = false) :
    createRawE raw st = (422, none, st) ∧
    updateRawE i raw st = (422, none, st) := by
  have hv : validatePayload raw = .error .validationErr := by
    obtain ⟨f, l, e, d⟩ := raw
    rcases h with h | h | h | ⟨e0, he0, hbad⟩
    · simp only at h
      subst h
      rfl
    · simp only at h
      subst h
      cases f <;> rfl
    · simp only at h
      subst h
      cases f <;> cases l <;> rfl
    · simp only at he0
      subst he0
      cases f <;> cases l <;> simp [validatePayload, hbad]
  unfold createRawE updateRawE
  rw [hv]
  exact ⟨rfl, rfl⟩

/-- Witness for C9: a request missing its email field. -/
theorem c9_witness :
    createRawE ⟨some "Ada", some "Lovelace", none, none⟩ sampleStore =
      (422, none, sampleStore) ∧
    updateRawE 1 ⟨some "Ada", some "Lovelace", none, none⟩ sampleStore =
      (422, none, sampleStore) :=
  c9_validation_rejects ⟨some "Ada", some "Lovelace", none, none⟩
    sampleStore 1 (Or.inr (Or.inr (Or.inl rfl)))

/-- C10: in every reachable store state the primary keys are pairwise
distinct, and a successful create assigns an id carried by no row already
stored. -/
theorem c10_id_distinct_and_fresh (st : Store) (h : Reachable st) :
    IdsDistinct st ∧
    ∀ (p : StudentCreate) (s : StudentModel) (st' : Store),
      create_student p st = .ok (s, st') →
      s.id ∉ st.rows.map StudentModel.id := by
  refine ⟨(inv_reachable st h).2, ?_⟩
  intro p s st' hc
  unfold create_student at hc
  by_cases hex : emailExists st p.email = true
  · rw [if_pos hex] at hc
    cases hc
  · rw [if_neg hex] at hc
    simp only [Except.ok.injEq, Prod.mk.injEq] at hc
    obtain ⟨hs, -⟩ := hc
    intro hmem
    rcases List.mem_map.1 hmem with ⟨r, hr, hrid⟩
    have hlt := id_lt_nextId st r hr
    rw [← hs] at hrid
    simp only at hrid
    omega

/-- Witness for C10: ids are distinct after two creates, and creating Cara
there assigns a fresh id. -/
theorem c10_witness :
    IdsDistinct (runOps [Op.createOp adaRaw, Op.createOp bobRaw]) ∧
    (create_student caraPayload
        (runOps [Op.createOp adaRaw, Op.createOp bobRaw]) =
      .ok (⟨3, "Cara", "Jones", "cara@example.com", none⟩,
        ⟨(runOps [Op.createOp adaRaw, Op.createOp bobRaw]).rows ++
          [⟨3, "Cara", "Jones", "cara@example.com", none⟩]⟩) →
      (3 : Nat) ∉ (runOps [Op.createOp adaRaw,
        Op.createOp bobRaw]).rows.map StudentModel.id) :=
  ⟨(c10_id_distinct_and_fresh (runOps [Op.createOp adaRaw, Op.createOp bobRaw])
      ⟨_, rfl⟩).1,
   (c10_id_distinct_and_fresh (runOps [Op.createOp adaRaw, Op.createOp bobRaw])
      ⟨_, rfl⟩).2 caraPayload ⟨3, "Cara", "Jones", "cara@example.com", none⟩
      ⟨(runOps [Op.createOp adaRaw, Op.createOp bobRaw]).rows ++
        [⟨3, "Cara", "Jones", "cara@example.com", none⟩]⟩⟩
